import Mathlib

/-!
Verification development for the pac agent in `src/main.go`: a shallow
embedding of the grid model, the A* path search, the pellet/pac trackers and
the turn planner, followed by theorems settling the specification claims.

Go pointers into a slice or grid are represented by indices: a `*Cell` by the
slot coordinates `(x, y)` of the cell it points to inside one given grid, a
`*Pellet`/`*Pac` by the element's position in the slice. In-place mutation
through such a pointer becomes a functional update at that index. Go zero
values are `0`, `false`, `none` (nil pointer) and `[]` (nil slice).
-/

set_option maxRecDepth 4000
set_option linter.unusedVariables false

/-- Go `abs(x)` from src/main.go. -/
def absInt (x : Int) : Int := if x < 0 then -x else x

/-- Go `Cell` struct. The heap-index field `index` is bookkeeping internal to
`container/heap` and is represented by the position of the entry in the
open-set list instead. `parent` and `Neighbors` hold cell pointers, i.e. slot
coordinates. -/
structure Cell where
  x : Int
  y : Int
  isWall : Bool
  g : Int
  h : Int
  f : Int
  parent : Option (Int × Int)
  neighbors : List (Int × Int)
deriving Repr, DecidableEq, Inhabited

/-- A freshly constructed cell as `main` and `cloneGrid` build them: x, y and
isWall set, every other field a Go zero value. -/
def mkCell (x y : Int) (isWall : Bool) : Cell :=
  { x := x, y := y, isWall := isWall, g := 0, h := 0, f := 0, parent := none, neighbors := [] }

/-- Go `GetCell(x, y, grid)` = `grid[y][x]`. All internal callers use in-bounds
coordinates (Go panics otherwise); out of bounds this model returns the
zero-value cell. -/
def GetCell (x y : Int) (grid : List (List Cell)) : Cell :=
  match grid[y.toNat]? with
  | none => default
  | some row =>
    match row[x.toNat]? with
    | none => default
    | some c => c

/-- Write through a `*Cell` pointer: replace the cell at slot (x, y). -/
def setCell (grid : List (List Cell)) (x y : Int) (c : Cell) : List (List Cell) :=
  grid.set y.toNat ((grid.getD y.toNat []).set x.toNat c)

/-- Go `getNeighbors(cell, grid)`: pointers to the up-to-four orthogonal
neighbor slots, walls included, in the order left, right, up, down. -/
def getNeighbors (cell : Cell) (grid : List (List Cell)) : List (Int × Int) :=
  let x := cell.x
  let y := cell.y
  (if 0 < x then [(x - 1, y)] else []) ++
  (if x < ((grid.getD 0 []).length : Int) - 1 then [(x + 1, y)] else []) ++
  (if 0 < y then [(x, y - 1)] else []) ++
  (if y < (grid.length : Int) - 1 then [(x, y + 1)] else [])

/-- Go `Cell.InitNeighbors(grid)`. -/
def Cell.InitNeighbors (c : Cell) (grid : List (List Cell)) : Cell :=
  { c with neighbors := getNeighbors c grid }

/-- The double loop in `main` that calls `InitNeighbors` on every cell of the
freshly built grid. `getNeighbors` reads only coordinates and the grid's
dimensions, so the Go iteration order over the mutating grid is immaterial. -/
def initNeighborsGrid (grid : List (List Cell)) : List (List Cell) :=
  grid.map (fun row => row.map (fun c => c.InitNeighbors grid))

/-- Go `manhattanDistance(a, b)`. -/
def manhattanDistance (a b : Cell) : Int :=
  absInt (a.x - b.x) + absInt (a.y - b.y)

/-- Go `cloneGrid(grid)`: a fresh grid holding, per slot, a new cell with only
x, y and isWall copied. The search fields and, in particular, `Neighbors` are
left at their Go zero values, so every clone cell has a nil neighbor list. -/
def cloneGrid (grid : List (List Cell)) : List (List Cell) :=
  grid.map (fun row => row.map (fun cell => mkCell cell.x cell.y cell.isWall))

/-- Number of cell slots of a grid; used only to size the fuel of the loops
below (the Go loops are unbounded). -/
def totalCells (grid : List (List Cell)) : Nat :=
  (grid.map List.length).sum

/-- The open-set entry with minimal `f` (Go `heap.Pop` on the `PriorityQueue`
ordered by `Less`, i.e. by `f`). Among equal `f` values the Go heap order is
unspecified; this model takes the earliest entry. In every execution the
theorems below touch, the open set never holds two entries at once, so the
tie choice never matters. Returns (index, f). -/
def minFIdx (grid : List (List Cell)) : List (Int × Int) → Option (Nat × Int)
  | [] => none
  | c :: cs =>
    match minFIdx grid cs with
    | none => some (0, (GetCell c.1 c.2 grid).f)
    | some (j, fj) =>
      if fj < (GetCell c.1 c.2 grid).f then some (j + 1, fj)
      else some (0, (GetCell c.1 c.2 grid).f)

/-- Pop the minimal-`f` entry off the open set. -/
def popMin (grid : List (List Cell)) (l : List (Int × Int)) :
    Option ((Int × Int) × List (Int × Int)) :=
  match minFIdx grid l with
  | none => none
  | some (j, _) =>
    match l[j]? with
    | none => none
    | some c => some (c, l.eraseIdx j)

/-- One iteration of the neighbor loop inside Go `AStar`, threading the mutable
clone grid and the open set. Go pushes an uncontained neighbor and then falls
through to set its parent and `update` its g/h/f; a contained neighbor with no
better tentative g is skipped (`continue`). -/
def relaxStep (closedSet : List (Int × Int)) (goal cur : Int × Int)
    (st : List (List Cell) × List (Int × Int)) (nb : Int × Int) :
    List (List Cell) × List (Int × Int) :=
  let clone := st.1
  let openSet := st.2
  let ncell := GetCell nb.1 nb.2 clone
  if ncell.isWall || closedSet.contains nb then st
  else
    let tentativeG := (GetCell cur.1 cur.2 clone).g + 1
    if openSet.contains nb then
      if tentativeG ≥ ncell.g then st
      else
        let h := manhattanDistance ncell (GetCell goal.1 goal.2 clone)
        (setCell clone nb.1 nb.2
          { ncell with parent := some cur, g := tentativeG, h := h, f := tentativeG + h },
         openSet)
    else
      let h := manhattanDistance ncell (GetCell goal.1 goal.2 clone)
      (setCell clone nb.1 nb.2
        { ncell with parent := some cur, g := tentativeG, h := h, f := tentativeG + h },
       openSet ++ [nb])

/-- Go path reconstruction: `for current != nil` prepend the cell and follow
`parent`. Parent chains of a search are acyclic, so fuel `totalCells + 1` is
never exhausted in an actual run. -/
def reconstructPath (clone : List (List Cell)) :
    Option (Int × Int) → Nat → List (Int × Int) → List (Int × Int)
  | none, _, acc => acc
  | some _, 0, acc => acc
  | some c, fuel + 1, acc =>
    reconstructPath clone (GetCell c.1 c.2 clone).parent fuel (c :: acc)

/-- The `for openSet.Len() > 0` loop of Go `AStar`, with fuel making the
recursion structural (the executions reasoned about below end within two
iterations, far under the fuel). The result is the path as a list of cell
pointers, `[]` standing for Go's nil no-path result (a reconstructed path is
never empty, so nothing is conflated). -/
def astarLoop (goal : Int × Int) :
    Nat → List (List Cell) → List (Int × Int) → List (Int × Int) → List (Int × Int)
  | 0, _, _, _ => []
  | fuel + 1, clone, openSet, closedSet =>
    match popMin clone openSet with
    | none => []
    | some (cur, openRest) =>
      if cur = goal then
        reconstructPath clone (some cur) (totalCells clone + 1) []
      else
        let closed1 := closedSet ++ [cur]
        let st := ((GetCell cur.1 cur.2 clone).neighbors).foldl
          (relaxStep closed1 goal cur) (clone, openRest)
        astarLoop goal fuel st.1 st.2 closed1

/-- Go `AStar(startX, startY, endX, endY, grid)`: the search runs on
`cloneGrid grid`; start and goal are the clone cells at the given coordinates,
and pointer equality of clone cells is equality of slot coordinates. -/
def AStar (startX startY endX endY : Int) (grid : List (List Cell)) :
    List (Int × Int) :=
  let clone := cloneGrid grid
  astarLoop (endX, endY) (4 * totalCells clone + 4) clone [(startX, startY)] []

/-- Go `Pac` struct. -/
structure Pac where
  Id : Int
  Mine : Bool
  X : Int
  Y : Int
  TypeId : String
  SpeedTurnsLeft : Int
  AbilityCooldown : Int
  TargetX : Int
  TargetY : Int
  TargetPelletId : Int
  TargetPelletDist : Int
deriving Repr, DecidableEq, Inhabited

/-- Go `Pellet` struct. -/
structure Pellet where
  X : Int
  Y : Int
  Value : Int
  Consumed : Bool
  Targeted : Bool
deriving Repr, DecidableEq, Inhabited

/-- Go `Game` struct. The pellet and pac slices hold distinct heap objects, so
a pointer to an element is represented by the element's index. -/
structure Game where
  Width : Int
  Height : Int
  MyPacs : List Pac
  OpponentPacs : List Pac
  Pellet : List Pellet
  Grid : List (List Cell)
  MyScore : Int
  OpponentScore : Int
  VisiblePacCount : Int
  VisiblePalleteCount : Int
deriving Repr, DecidableEq, Inhabited

/-- The coordinate test `pellet.X == x && pellet.Y == y` used by every pellet
scan in the source. -/
def pelletAt (x y : Int) (p : Pellet) : Bool :=
  p.X == x && p.Y == y

/-- Write through the pointer a first-match scan returned: apply `f` to the
first element satisfying `c` and keep the rest; identity when nothing matches
(Go's nil check skips the write). -/
def updateFirstPellet (c : Pellet → Bool) (f : Pellet → Pellet) :
    List Pellet → List Pellet
  | [] => []
  | q :: qs => if c q then f q :: qs else q :: updateFirstPellet c f qs

/-- The scan of Go `Game.GetPallet(x, y)` over the pellet slice: a pointer to
the first pellet at (x, y), or nil. -/
def getPallet (pellets : List Pellet) (x y : Int) : Option Pellet :=
  pellets.find? (pelletAt x y)

/-- Go `Game.GetPallet(x, y)` (debug logging dropped). -/
def Game.GetPallet (g : Game) (x y : Int) :=
  getPallet g.Pellet x y

/-- The mutation Go `Game.RemovePallet(pac)` performs on the pellet slice:
mark the pellet at the pac's position consumed, when there is one. -/
def removePallet (pellets : List Pellet) (x y : Int) : List Pellet :=
  updateFirstPellet (pelletAt x y) (fun p => { p with Consumed := true }) pellets

/-- Go `Game.RemovePallet(pac)`. -/
def Game.RemovePallet (g : Game) (pac : Pac) : Game :=
  { g with Pellet := removePallet g.Pellet pac.X pac.Y }

/-- The body of Go `Game.AddPac` on one side's slice: overwrite position and
attribute fields of the first pac with this id, else append a fresh pac whose
target is its own position (the remaining fields are Go zero values). -/
def addPacList (id mine x y : Int) (typeId : String)
    (speedTurnsLeft abilityCooldown : Int) : List Pac → List Pac
  | [] =>
    [{ Id := id, Mine := mine == 1, X := x, Y := y, TypeId := typeId,
       SpeedTurnsLeft := speedTurnsLeft, AbilityCooldown := abilityCooldown,
       TargetX := x, TargetY := y, TargetPelletId := 0, TargetPelletDist := 0 }]
  | p :: ps =>
    if p.Id = id then
      { p with X := x, Y := y, TypeId := typeId, SpeedTurnsLeft := speedTurnsLeft,
               AbilityCooldown := abilityCooldown } :: ps
    else p :: addPacList id mine x y typeId speedTurnsLeft abilityCooldown ps

/-- Go `Game.AddPac(id, mine, x, y, typeId, speedTurnsLeft, abilityCooldown)`. -/
def Game.AddPac (g : Game) (id mine x y : Int) (typeId : String)
    (speedTurnsLeft abilityCooldown : Int) : Game :=
  if mine = 1 then
    { g with MyPacs := addPacList id mine x y typeId speedTurnsLeft abilityCooldown g.MyPacs }
  else
    { g with OpponentPacs := addPacList id mine x y typeId speedTurnsLeft abilityCooldown g.OpponentPacs }

/-- The scan-update-or-append body of Go `Game.AddPellet` (whose `id` argument
is unused in the source as well): un-consume and update the first pellet at
(x, y), or append a fresh unconsumed, untargeted entry. -/
def addPelletList (x y value : Int) : List Pellet → List Pellet
  | [] => [{ X := x, Y := y, Value := value, Consumed := false, Targeted := false }]
  | p :: ps =>
    if pelletAt x y p then
      { p with X := x, Y := y, Value := value, Consumed := false } :: ps
    else p :: addPelletList x y value ps

/-- Go `Game.AddPellet(id, x, y, value)`. -/
def Game.AddPellet (g : Game) (id x y value : Int) : Game :=
  { g with Pellet := addPelletList x y value g.Pellet }

/-- The `for _, pallet := range game.Pellet { pallet.Consumed = true }` loop at
the top of each turn of `main`. -/
def resetVisibility (pellets : List Pellet) : List Pellet :=
  pellets.map (fun p => { p with Consumed := true })

/-- The visible-pellet report loop of each turn of `main`: one `AddPellet` per
reported (x, y, value) triple, in report order. -/
def applyReports (pellets : List Pellet) (reports : List (Int × Int × Int)) :
    List Pellet :=
  reports.foldl (fun ps r => addPelletList r.1 r.2.1 r.2.2 ps) pellets

/-- The scan loop of Go `Game.GetClosestSuperPallet`, threading (pointer to the
best pellet so far, the recorded `closestDist`); the pellet pointer is its
index in the slice. The Go guard `closest == nil || len(path) < closestDist`
is split into the nil-accumulator clause and the comparison clause. -/
def closestSuperLoop (grid : List (List Cell)) (pac : Pac) :
    List Pellet → Nat → Option (Nat × Nat) → Option (Nat × Nat)
  | [], _, acc => acc
  | p :: ps, i, none =>
    if p.Value = 10 ∧ p.Consumed = false ∧ p.Targeted = false then
      closestSuperLoop grid pac ps (i + 1)
        (some (i, (AStar pac.X pac.Y p.X p.Y grid).length))
    else closestSuperLoop grid pac ps (i + 1) none
  | p :: ps, i, some (j, dj) =>
    if p.Value = 10 ∧ p.Consumed = false ∧ p.Targeted = false then
      if (AStar pac.X pac.Y p.X p.Y grid).length < dj then
        closestSuperLoop grid pac ps (i + 1)
          (some (i, (AStar pac.X pac.Y p.X p.Y grid).length))
      else closestSuperLoop grid pac ps (i + 1) (some (j, dj))
    else closestSuperLoop grid pac ps (i + 1) (some (j, dj))

/-- Go `Game.GetClosestSuperPallet(pac)`: `some (i, d)` is the pointer to
pellet `i` together with the recorded `closestDist` (`len(path)`, where the
nil path has Go length 0); `none` is the nil pointer. -/
def Game.GetClosestSuperPallet (g : Game) (pac : Pac) : Option (Nat × Nat) :=
  closestSuperLoop g.Grid pac g.Pellet 0 none

/-- The scan loop of Go `Game.GetClosestRegularPallet`, identical to the super
scan except for the value filter. -/
def closestRegularLoop (grid : List (List Cell)) (pac : Pac) :
    List Pellet → Nat → Option (Nat × Nat) → Option (Nat × Nat)
  | [], _, acc => acc
  | p :: ps, i, none =>
    if p.Value = 1 ∧ p.Consumed = false ∧ p.Targeted = false then
      closestRegularLoop grid pac ps (i + 1)
        (some (i, (AStar pac.X pac.Y p.X p.Y grid).length))
    else closestRegularLoop grid pac ps (i + 1) none
  | p :: ps, i, some (j, dj) =>
    if p.Value = 1 ∧ p.Consumed = false ∧ p.Targeted = false then
      if (AStar pac.X pac.Y p.X p.Y grid).length < dj then
        closestRegularLoop grid pac ps (i + 1)
          (some (i, (AStar pac.X pac.Y p.X p.Y grid).length))
      else closestRegularLoop grid pac ps (i + 1) (some (j, dj))
    else closestRegularLoop grid pac ps (i + 1) (some (j, dj))

/-- Go `Game.GetClosestRegularPallet(pac)`. -/
def Game.GetClosestRegularPallet (g : Game) (pac : Pac) : Option (Nat × Nat) :=
  closestRegularLoop g.Grid pac g.Pellet 0 none

/-- Go `Game.CheckTargetEaten(pac)`: look up the pellet at the pac's stored
target; when it is absent, or present but consumed, reset the target to the
pac's own position and the cached distance to -1. -/
def checkTargetEaten (pellets : List Pellet) (pac : Pac) : Pac :=
  match pellets.find? (pelletAt pac.TargetX pac.TargetY) with
  | some pallet =>
    if pallet.Consumed then
      { pac with TargetX := pac.X, TargetY := pac.Y, TargetPelletDist := -1 }
    else pac
  | none => { pac with TargetX := pac.X, TargetY := pac.Y, TargetPelletDist := -1 }

/-- Go `Game.CheckTargetEaten` as the method on the game state. -/
def Game.CheckTargetEaten (g : Game) (pac : Pac) : Pac :=
  checkTargetEaten g.Pellet pac

/-- One iteration of the per-pac move loop of Go `Game.PlayTurn`, threading the
mutated pellet slice and returning the mutated pac and the move text appended
for it. `none` models the nil-pointer dereference in the final else branch
(`pallet.X` with `pallet == nil` in the `Sprintf` arguments), which panics. -/
def planPac (grid : List (List Cell)) (pellets : List Pellet) (pac : Pac) :
    Option (List Pellet × Pac × String) :=
  if pac.X = pac.TargetX ∧ pac.Y = pac.TargetY then
    let old := pellets.find? (pelletAt pac.TargetX pac.TargetY)
    let pellets1 :=
      match old with
      | some _ => updateFirstPellet (pelletAt pac.TargetX pac.TargetY)
          (fun p => { p with Value := 0 }) pellets
      | none => pellets
    let pac1 :=
      match old with
      | some _ => { pac with TargetX := -1, TargetY := -1, TargetPelletDist := -1 }
      | none => pac
    match closestSuperLoop grid pac1 pellets1 0 none with
    | some (i, _) =>
      let pal := pellets1.getD i default
      some (pellets1.set i { pal with Targeted := true },
        { pac1 with TargetX := pal.X, TargetY := pal.Y,
                    TargetPelletDist := (AStar pac1.X pac1.Y pal.X pal.Y grid).length },
        "MOVE " ++ toString pac1.Id ++ " " ++ toString pal.X ++ " "
          ++ toString pal.Y ++ "|")
    | none =>
      match closestRegularLoop grid pac1 pellets1 0 none with
      | some (i, _) =>
        let pal := pellets1.getD i default
        some (pellets1.set i { pal with Targeted := true },
          { pac1 with TargetX := pal.X, TargetY := pal.Y,
                      TargetPelletDist := (AStar pac1.X pac1.Y pal.X pal.Y grid).length },
          "MOVE " ++ toString pac1.Id ++ " " ++ toString pal.X ++ " "
            ++ toString pal.Y ++ "|")
      | none => none
  else
    some (pellets, pac,
      "MOVE " ++ toString pac.Id ++ " " ++ toString pac.TargetX ++ " "
        ++ toString pac.TargetY ++ "|")

/-- The pellet-slice effect of the `old != nil` sub-step at the head of
`planPac`'s arrived branch (`old.Value = 0` through the `GetPallet` pointer),
named so the planner's equations below can be stated compactly. -/
def oldPellets (pellets : List Pellet) (pac : Pac) : List Pellet :=
  match pellets.find? (pelletAt pac.TargetX pac.TargetY) with
  | some _ =>
    updateFirstPellet (pelletAt pac.TargetX pac.TargetY)
      (fun p => { p with Value := 0 }) pellets
  | none => pellets

/-- The pac effect of the same sub-step (target fields reset to -1 when a
pellet sat at the reached target). -/
def oldPac (pellets : List Pellet) (pac : Pac) : Pac :=
  match pellets.find? (pelletAt pac.TargetX pac.TargetY) with
  | some _ => { pac with TargetX := -1, TargetY := -1, TargetPelletDist := -1 }
  | none => pac

/-- The move-emission loop of Go `Game.PlayTurn` over the owned pacs; a `none`
from `planPac` (the nil dereference) aborts the turn. -/
def movesLoop (grid : List (List Cell)) (pellets : List Pellet) :
    List Pac → Option (List Pellet × List Pac × String)
  | [] => some (pellets, [], "")
  | pac :: rest =>
    match planPac grid pellets pac with
    | none => none
    | some (pellets1, pac1, mv) =>
      match movesLoop grid pellets1 rest with
      | none => none
      | some (pellets2, pacs2, moves2) => some (pellets2, pac1 :: pacs2, mv ++ moves2)

/-- The first loop of Go `Game.PlayTurn`: per owned pac, `RemovePallet` then
`CheckTargetEaten`, threading the pellet mutations. -/
def phase1 (pellets : List Pellet) : List Pac → List Pellet × List Pac
  | [] => (pellets, [])
  | pac :: rest =>
    let pellets1 := removePallet pellets pac.X pac.Y
    let pac1 := checkTargetEaten pellets1 pac
    let st := phase1 pellets1 rest
    (st.1, pac1 :: st.2)

/-- The second loop of Go `Game.PlayTurn`: `RemovePallet` per opponent pac. -/
def phase2 (pellets : List Pellet) (pacs : List Pac) : List Pellet :=
  pacs.foldl (fun ps pac => removePallet ps pac.X pac.Y) pellets

/-- Go `Game.PlayTurn`: the two reconciliation loops, then the move loop;
`some (new state, moves)` on completion, `none` when the move loop hits the
nil-pellet dereference. -/
def Game.PlayTurn (g : Game) : Option (Game × String) :=
  let st1 := phase1 g.Pellet g.MyPacs
  let pellets2 := phase2 st1.1 g.OpponentPacs
  match movesLoop g.Grid pellets2 st1.2 with
  | none => none
  | some (pellets3, pacs3, moves) =>
    some ({ g with Pellet := pellets3, MyPacs := pacs3 }, moves)

/-- Generic form shared by the two closest-pellet scan loops, abstracting the
candidate filter and the distance function; used only to state and prove their
common argmin property once. -/
def scanMin (cand : Pellet → Bool) (dist : Pellet → Nat) :
    List Pellet → Nat → Option (Nat × Nat) → Option (Nat × Nat)
  | [], _, acc => acc
  | p :: ps, i, none =>
    if cand p then scanMin cand dist ps (i + 1) (some (i, dist p))
    else scanMin cand dist ps (i + 1) none
  | p :: ps, i, some (j, dj) =>
    if cand p then
      if dist p < dj then scanMin cand dist ps (i + 1) (some (i, dist p))
      else scanMin cand dist ps (i + 1) (some (j, dj))
    else scanMin cand dist ps (i + 1) (some (j, dj))

/-- Candidate filter of `GetClosestSuperPallet`: value 10, not consumed, not
targeted. -/
def superCand (p : Pellet) : Bool :=
  decide (p.Value = 10 ∧ p.Consumed = false ∧ p.Targeted = false)

/-- Candidate filter of `GetClosestRegularPallet`: value 1, not consumed, not
targeted. -/
def regularCand (p : Pellet) : Bool :=
  decide (p.Value = 1 ∧ p.Consumed = false ∧ p.Targeted = false)

/-- Go `len(AStar(pac.X, pac.Y, p.X, p.Y, grid))`; the nil path has length 0. -/
def pathLen (grid : List (List Cell)) (pac : Pac) (p : Pellet) : Nat :=
  (AStar pac.X pac.Y p.X p.Y grid).length

/-- What the first-wins strict-min scan of the source returns on `ps`: `none`
exactly when no candidate exists, otherwise the earliest candidate of minimal
distance, paired with that distance. -/
def IsBest (cand : Pellet → Bool) (dist : Pellet → Nat) (ps : List Pellet) :
    Option (Nat × Nat) → Prop
  | none => ∀ p ∈ ps, cand p = false
  | some (j, d) =>
    ∃ p, ps[j]? = some p ∧ cand p = true ∧ dist p = d ∧
      (∀ (k : Nat) (q : Pellet), ps[k]? = some q → cand q = true → d ≤ dist q) ∧
      (∀ (k : Nat) (q : Pellet), k < j → ps[k]? = some q → cand q = true → d < dist q)

/-- In-bounds test for a coordinate pair of a grid (Go indexes `grid[y][x]`
and panics outside; theorems about `AStar` assume built cells, as the spec
requires of callers). -/
def inBoundsB (grid : List (List Cell)) (x y : Int) : Bool :=
  decide (0 ≤ x) && decide (0 ≤ y) && decide (y.toNat < grid.length) &&
    decide (x.toNat < (grid.getD y.toNat []).length)

/-- No two pellets of the slice share a coordinate pair (the invariant
`AddPellet` maintains, since it never inserts a duplicate coordinate). -/
def distinctCoordsB : List Pellet → Bool
  | [] => true
  | p :: ps => ps.all (fun q => !(pelletAt p.X p.Y q)) && distinctCoordsB ps

/-- Modelled from the spec (section 4.4): `upsertOrCreate(id, isMine, x, y,
attrs)` — on existing id, overwrite mutable fields (position, attrs) in
place, preserving target assignment; on new id, create with target
initialized to the unit's own current position. Written from the spec's words
to compare with `addPacList` (the code's scan), which is the refinement
content of the unit-upsert claim. -/
def upsertOrCreate (pacs : List Pac) (id : Int) (isMine : Bool) (x y : Int)
    (typeId : String) (speedTurnsLeft abilityCooldown : Int) : List Pac :=
  match pacs.findIdx? (fun q => q.Id == id) with
  | some i =>
    pacs.set i
      { pacs.getD i default with
        X := x, Y := y, TypeId := typeId,
        SpeedTurnsLeft := speedTurnsLeft, AbilityCooldown := abilityCooldown }
  | none =>
    pacs ++ [{ Id := id, Mine := isMine, X := x, Y := y, TypeId := typeId,
               SpeedTurnsLeft := speedTurnsLeft, AbilityCooldown := abilityCooldown,
               TargetX := x, TargetY := y, TargetPelletId := 0, TargetPelletDist := 0 }]

/-- The pellet at (x, y) is stale: absent, or present but consumed (the
condition under which `CheckTargetEaten` resets a unit's target). -/
def targetStale (pellets : List Pellet) (x y : Int) : Bool :=
  match getPallet pellets x y with
  | none => true
  | some q => q.Consumed

/-- Pointwise evolution of a pellet slice that never clears a targeted flag
and never moves a pellet: same length, same coordinates per index, and a set
targeted flag stays set. -/
def TargetedMono (l l2 : List Pellet) : Prop :=
  l.length = l2.length ∧
  ∀ (i : Nat) (p p2 : Pellet), l[i]? = some p → l2[i]? = some p2 →
    p2.X = p.X ∧ p2.Y = p.Y ∧ (p.Targeted = true → p2.Targeted = true)

/-- Any pellet still satisfying the super-candidate filter after one of the
planner's slice updates was already there, unchanged: the updates (marking
consumed, zeroing a value, setting a targeted flag) never create or alter a
super candidate. -/
def SuperShrink (l l2 : List Pellet) : Prop :=
  ∀ (j : Nat) (q : Pellet), l2[j]? = some q → superCand q = true → l[j]? = some q

/-- Two pellet slices agree pointwise on coordinates (the planner's updates
never move a pellet). -/
def CoordsEq (l l2 : List Pellet) : Prop :=
  ∀ j : Nat, (l[j]?).map (fun p => (p.X, p.Y)) = (l2[j]?).map (fun p => (p.X, p.Y))

/-- A 1-row, 3-cell open grid with neighbor lists initialized as `main` does;
cells (0,0) and (1,0) are open and mutually adjacent. -/
def row1 : List Cell := [mkCell 0 0 false, mkCell 1 0 false, mkCell 2 0 false]

/-- The neighbor-initialized form of `row1` as a grid. -/
def grid1 : List (List Cell) := initNeighborsGrid [row1]

/-- A 1-row grid whose middle cell is a wall: (0,0) and (2,0) are open but in
different connected components. -/
def gridC5 : List (List Cell) :=
  initNeighborsGrid [[mkCell 0 0 false, mkCell 1 0 true, mkCell 2 0 false]]

/-- An owned pac sitting at (0,0) with its target already equal to its own
position (idle). -/
def pacA : Pac :=
  { Id := 0, Mine := true, X := 0, Y := 0, TypeId := "ROCK", SpeedTurnsLeft := 0,
    AbilityCooldown := 0, TargetX := 0, TargetY := 0, TargetPelletId := 0,
    TargetPelletDist := 0 }

/-- A second owned idle pac at (0,0), distinct id. -/
def pacB : Pac := { pacA with Id := 1 }

/-- A game with a single idle owned pac on a 1-cell open grid and no pellets at
all: the terminal no-pellet situation. -/
def gC3 : Game :=
  { Width := 1, Height := 1, MyPacs := [pacA], OpponentPacs := [], Pellet := [],
    Grid := initNeighborsGrid [[mkCell 0 0 false]], MyScore := 0, OpponentScore := 0,
    VisiblePacCount := 0, VisiblePalleteCount := 0 }

/-- A super pellet at (2,0) that is consumed and still flagged targeted. -/
def pelletP : Pellet := { X := 2, Y := 0, Value := 10, Consumed := true, Targeted := true }

/-- A live regular pellet at (1,0). -/
def pelletQ : Pellet := { X := 1, Y := 0, Value := 1, Consumed := false, Targeted := false }

/-- The pac that had committed to `pelletP` (target (2,0)) and has not arrived. -/
def pacC6 : Pac := { pacA with TargetX := 2, TargetY := 0, TargetPelletDist := 3 }

/-- Turn state in which `pacC6`'s target pellet `pelletP` has been consumed:
the pac's stored target is stale and `pelletP` still carries the targeted
flag. -/
def gC6 : Game :=
  { gC3 with Width := 3, Grid := grid1, Pellet := [pelletP, pelletQ], MyPacs := [pacC6] }

/-- The state `Game.PlayTurn` produces from `gC6`: the stale target was reset
and the pac re-committed to `pelletQ`; `pelletP.Targeted` is still true. -/
def gC6after : Game :=
  { gC6 with Pellet := [pelletP, { pelletQ with Targeted := true }],
             MyPacs := [{ pacC6 with TargetX := 1, TargetY := 0, TargetPelletDist := 0 }] }

/-- A live super pellet at (2,0) (used where that cell is walled off from the
pac at (0,0)). -/
def pelC5 : Pellet := { X := 2, Y := 0, Value := 10, Consumed := false, Targeted := false }

/-- Game on `gridC5` with one unconsumed, untargeted super pellet at the
unreachable cell (2,0) and the idle pac at (0,0). -/
def gC5 : Game := { gC3 with Width := 3, Grid := gridC5, Pellet := [pelC5] }

/-- Pellet slice for the report-reconciliation witness: two known pellets at
distinct coordinates. -/
def pelsC7 : List Pellet :=
  [{ X := 0, Y := 0, Value := 1, Consumed := false, Targeted := false },
   { X := 1, Y := 0, Value := 10, Consumed := false, Targeted := false }]

/-- One turn's visible-pellet report naming only the pellet at (0,0). -/
def repsC7 : List (Int × Int × Int) := [(0, 0, 1)]

/-- Game for the double-targeting witness: two idle pacs at (0,0), one live
super pellet at (2,0), one live regular pellet at (1,0), on the open 3-cell
row. -/
def gC9 : Game :=
  { gC3 with Width := 3, Grid := grid1, MyPacs := [pacA, pacB],
             Pellet := [{ pelletP with Consumed := false, Targeted := false }, pelletQ] }

theorem getCell_cloneGrid (grid : List (List Cell)) (x y : Int) :
    (GetCell x y (cloneGrid grid)).neighbors = [] ∧
    (GetCell x y (cloneGrid grid)).parent = none := by
  unfold GetCell
  simp only [cloneGrid, List.getElem?_map]
  cases hy : grid[y.toNat]? with
  | none => exact ⟨rfl, rfl⟩
  | some row =>
    simp only [Option.map_some', List.getElem?_map]
    cases hx : row[x.toNat]? with
    | none => exact ⟨rfl, rfl⟩
    | some c => simp [mkCell]

theorem popMin_singleton (grid : List (List Cell)) (c : Int × Int) :
    popMin grid [c] = some (c, []) := rfl

theorem popMin_nil (grid : List (List Cell)) : popMin grid [] = none := rfl

theorem reconstructPath_none (clone : List (List Cell)) (fuel : Nat)
    (acc : List (Int × Int)) : reconstructPath clone none fuel acc = acc := by
  cases fuel <;> rfl

theorem astar_clone_eq (sx sy ex ey : Int) (grid : List (List Cell)) :
    AStar sx sy ex ey grid = if sx = ex ∧ sy = ey then [(sx, sy)] else [] := by
  show astarLoop (ex, ey) ((4 * totalCells (cloneGrid grid) + 3) + 1)
      (cloneGrid grid) [(sx, sy)] [] = _
  rw [astarLoop]
  simp only [popMin_singleton]
  by_cases h : sx = ex ∧ sy = ey
  · have hp : (sx, sy) = (ex, ey) := by rw [h.1, h.2]
    rw [if_pos hp, if_pos h]
    rw [reconstructPath]
    show reconstructPath (cloneGrid grid) (GetCell sx sy (cloneGrid grid)).parent
        (totalCells (cloneGrid grid)) [(sx, sy)] = [(sx, sy)]
    rw [(getCell_cloneGrid grid sx sy).2, reconstructPath_none]
  · have hp : ¬((sx, sy) = (ex, ey)) := by
      intro hh
      exact h ⟨congrArg Prod.fst hh, congrArg Prod.snd hh⟩
    rw [if_neg hp, if_neg h]
    show astarLoop (ex, ey) ((4 * totalCells (cloneGrid grid) + 2) + 1)
        (List.foldl (relaxStep ([] ++ [(sx, sy)]) (ex, ey) (sx, sy)) (cloneGrid grid, [])
          (GetCell sx sy (cloneGrid grid)).neighbors).1
        (List.foldl (relaxStep ([] ++ [(sx, sy)]) (ex, ey) (sx, sy)) (cloneGrid grid, [])
          (GetCell sx sy (cloneGrid grid)).neighbors).2
        ([] ++ [(sx, sy)]) = []
    rw [(getCell_cloneGrid grid sx sy).1]
    rw [astarLoop]
    rfl

theorem getElem?_singleton_eq {α : Type} (p q : α) (m : Nat)
    (h : [p][m]? = some q) : q = p := by
  cases m with
  | zero => simp at h; exact h.symm
  | succ m => simp at h

theorem getElem?_append_self {α : Type} (pre : List α) (p : α) :
    (pre ++ [p])[pre.length]? = some p := by
  rw [List.getElem?_append, if_neg (Nat.lt_irrefl _), Nat.sub_self]
  rfl

theorem isBest_extend_notcand (cand : Pellet → Bool) (dist : Pellet → Nat)
    (pre : List Pellet) (p : Pellet) (acc : Option (Nat × Nat))
    (hacc : IsBest cand dist pre acc) (hp : cand p = false) :
    IsBest cand dist (pre ++ [p]) acc := by
  cases acc with
  | none =>
    intro q hq
    rcases List.mem_append.mp hq with h | h
    · exact hacc q h
    · rw [List.mem_singleton.mp h]; exact hp
  | some jd =>
    obtain ⟨j, d⟩ := jd
    obtain ⟨pw, hj, hcand, hd, hmin, hstrict⟩ := hacc
    have hjlt : j < pre.length := (List.getElem?_eq_some.mp hj).1
    refine ⟨pw, ?_, hcand, hd, ?_, ?_⟩
    · rw [List.getElem?_append, if_pos hjlt]; exact hj
    · intro k q hk hq
      rw [List.getElem?_append] at hk
      by_cases hkl : k < pre.length
      · rw [if_pos hkl] at hk; exact hmin k q hk hq
      · rw [if_neg hkl] at hk
        rw [getElem?_singleton_eq p q _ hk] at hq
        rw [hp] at hq; cases hq
    · intro k q hklt hk hq
      rw [List.getElem?_append, if_pos (hklt.trans hjlt)] at hk
      exact hstrict k q hklt hk hq

theorem isBest_extend_new_none (cand : Pellet → Bool) (dist : Pellet → Nat)
    (pre : List Pellet) (p : Pellet)
    (hacc : IsBest cand dist pre none) (hp : cand p = true) :
    IsBest cand dist (pre ++ [p]) (some (pre.length, dist p)) := by
  refine ⟨p, getElem?_append_self pre p, hp, rfl, ?_, ?_⟩
  · intro k q hk hq
    rw [List.getElem?_append] at hk
    by_cases hkl : k < pre.length
    · rw [if_pos hkl] at hk
      rw [hacc q (List.getElem?_mem hk)] at hq; cases hq
    · rw [if_neg hkl] at hk
      rw [getElem?_singleton_eq p q _ hk]
  · intro k q hklt hk hq
    rw [List.getElem?_append, if_pos hklt] at hk
    rw [hacc q (List.getElem?_mem hk)] at hq; cases hq

theorem isBest_extend_better (cand : Pellet → Bool) (dist : Pellet → Nat)
    (pre : List Pellet) (p : Pellet) (j : Nat) (dj : Nat)
    (hacc : IsBest cand dist pre (some (j, dj))) (hp : cand p = true)
    (hlt : dist p < dj) :
    IsBest cand dist (pre ++ [p]) (some (pre.length, dist p)) := by
  obtain ⟨pw, hj, hcand, hd, hmin, hstrict⟩ := hacc
  refine ⟨p, getElem?_append_self pre p, hp, rfl, ?_, ?_⟩
  · intro k q hk hq
    rw [List.getElem?_append] at hk
    by_cases hkl : k < pre.length
    · rw [if_pos hkl] at hk
      exact Nat.le_of_lt (Nat.lt_of_lt_of_le hlt (hmin k q hk hq))
    · rw [if_neg hkl] at hk
      rw [getElem?_singleton_eq p q _ hk]
  · intro k q hklt hk hq
    rw [List.getElem?_append, if_pos hklt] at hk
    exact Nat.lt_of_lt_of_le hlt (hmin k q hk hq)

theorem isBest_extend_noworse (cand : Pellet → Bool) (dist : Pellet → Nat)
    (pre : List Pellet) (p : Pellet) (j : Nat) (dj : Nat)
    (hacc : IsBest cand dist pre (some (j, dj))) (hp : cand p = true)
    (hge : ¬(dist p < dj)) :
    IsBest cand dist (pre ++ [p]) (some (j, dj)) := by
  obtain ⟨pw, hj, hcand, hd, hmin, hstrict⟩ := hacc
  have hjlt : j < pre.length := (List.getElem?_eq_some.mp hj).1
  refine ⟨pw, ?_, hcand, hd, ?_, ?_⟩
  · rw [List.getElem?_append, if_pos hjlt]; exact hj
  · intro k q hk hq
    rw [List.getElem?_append] at hk
    by_cases hkl : k < pre.length
    · rw [if_pos hkl] at hk; exact hmin k q hk hq
    · rw [if_neg hkl] at hk
      rw [getElem?_singleton_eq p q _ hk]
      exact Nat.le_of_not_lt hge
  · intro k q hklt hk hq
    rw [List.getElem?_append, if_pos (hklt.trans hjlt)] at hk
    exact hstrict k q hklt hk hq

theorem scanMin_invariant (cand : Pellet → Bool) (dist : Pellet → Nat) :
    ∀ (ps pre : List Pellet) (acc : Option (Nat × Nat)),
      IsBest cand dist pre acc →
      IsBest cand dist (pre ++ ps) (scanMin cand dist ps pre.length acc) := by
  intro ps
  induction ps with
  | nil =>
    intro pre acc hacc
    cases acc <;> simpa [scanMin] using hacc
  | cons p ps ih =>
    intro pre acc hacc
    have happ : pre ++ p :: ps = (pre ++ [p]) ++ ps := by simp
    cases acc with
    | none =>
      rw [scanMin, happ]
      by_cases hc : cand p = true
      · rw [if_pos hc]
        have h2 := ih (pre ++ [p]) (some (pre.length, dist p))
          (isBest_extend_new_none cand dist pre p hacc hc)
        simpa using h2
      · rw [if_neg hc]
        have h2 := ih (pre ++ [p]) none
          (isBest_extend_notcand cand dist pre p none hacc (eq_false_of_ne_true hc))
        simpa using h2
    | some jd =>
      obtain ⟨j, dj⟩ := jd
      rw [scanMin, happ]
      by_cases hc : cand p = true
      · rw [if_pos hc]
        by_cases hd : dist p < dj
        · rw [if_pos hd]
          have h2 := ih (pre ++ [p]) (some (pre.length, dist p))
            (isBest_extend_better cand dist pre p j dj hacc hc hd)
          simpa using h2
        · rw [if_neg hd]
          have h2 := ih (pre ++ [p]) (some (j, dj))
            (isBest_extend_noworse cand dist pre p j dj hacc hc hd)
          simpa using h2
      · rw [if_neg hc]
        have h2 := ih (pre ++ [p]) (some (j, dj))
          (isBest_extend_notcand cand dist pre p (some (j, dj)) hacc (eq_false_of_ne_true hc))
        simpa using h2

theorem scanMin_spec (cand : Pellet → Bool) (dist : Pellet → Nat) (ps : List Pellet) :
    IsBest cand dist ps (scanMin cand dist ps 0 none) := by
  have h := scanMin_invariant cand dist ps [] none (by intro q hq; cases hq)
  simpa using h

theorem closestSuperLoop_eq (grid : List (List Cell)) (pac : Pac) :
    ∀ (ps : List Pellet) (i : Nat) (acc : Option (Nat × Nat)),
      closestSuperLoop grid pac ps i acc =
        scanMin superCand (pathLen grid pac) ps i acc := by
  intro ps
  induction ps with
  | nil => intro i acc; cases acc <;> rfl
  | cons p ps ih =>
    intro i acc
    cases acc with
    | none =>
      simp only [closestSuperLoop, scanMin, superCand, decide_eq_true_eq, pathLen]
      split
      · exact ih _ _
      · exact ih _ _
    | some jd =>
      obtain ⟨j, dj⟩ := jd
      simp only [closestSuperLoop, scanMin, superCand, decide_eq_true_eq, pathLen]
      split
      · split
        · exact ih _ _
        · exact ih _ _
      · exact ih _ _

theorem closestRegularLoop_eq (grid : List (List Cell)) (pac : Pac) :
    ∀ (ps : List Pellet) (i : Nat) (acc : Option (Nat × Nat)),
      closestRegularLoop grid pac ps i acc =
        scanMin regularCand (pathLen grid pac) ps i acc := by
  intro ps
  induction ps with
  | nil => intro i acc; cases acc <;> rfl
  | cons p ps ih =>
    intro i acc
    cases acc with
    | none =>
      simp only [closestRegularLoop, scanMin, regularCand, decide_eq_true_eq, pathLen]
      split
      · exact ih _ _
      · exact ih _ _
    | some jd =>
      obtain ⟨j, dj⟩ := jd
      simp only [closestRegularLoop, scanMin, regularCand, decide_eq_true_eq, pathLen]
      split
      · split
        · exact ih _ _
        · exact ih _ _
      · exact ih _ _

theorem getClosestSuper_isBest (g : Game) (pac : Pac) :
    IsBest superCand (pathLen g.Grid pac) g.Pellet (g.GetClosestSuperPallet pac) := by
  rw [Game.GetClosestSuperPallet, closestSuperLoop_eq]
  exact scanMin_spec superCand (pathLen g.Grid pac) g.Pellet

theorem getClosestRegular_isBest (g : Game) (pac : Pac) :
    IsBest regularCand (pathLen g.Grid pac) g.Pellet (g.GetClosestRegularPallet pac) := by
  rw [Game.GetClosestRegularPallet, closestRegularLoop_eq]
  exact scanMin_spec regularCand (pathLen g.Grid pac) g.Pellet

/-- Claim C2: for every grid and in-bounds start/goal coordinates, `AStar`
returns nil (`[]`) whenever start differs from goal — the per-search clone
built by `cloneGrid` carries no neighbor lists, so the frontier never expands
beyond the start cell — and when start equals goal it returns the single-cell
path `[start]`. -/
theorem astar_returns_nil_unless_start_eq_goal (sx sy ex ey : Int)
    (grid : List (List Cell))
    (hs : inBoundsB grid sx sy = true) (he : inBoundsB grid ex ey = true) :
    (¬(sx = ex ∧ sy = ey) → AStar sx sy ex ey grid = []) ∧
    ((sx = ex ∧ sy = ey) → AStar sx sy ex ey grid = [(sx, sy)]) := by
  constructor
  · intro h; rw [astar_clone_eq, if_neg h]
  · intro h; rw [astar_clone_eq, if_pos h]

theorem astar_returns_nil_witness :
    AStar 0 0 1 0 grid1 = [] ∧ AStar 0 0 0 0 grid1 = [(0, 0)] :=
  ⟨(astar_returns_nil_unless_start_eq_goal 0 0 1 0 grid1 (by decide) (by decide)).1
     (by decide),
   (astar_returns_nil_unless_start_eq_goal 0 0 0 0 grid1 (by decide) (by decide)).2
     (by decide)⟩

/-- Claim C1 (evidence of the code bug): on `grid1` the cells (0,0) and (1,0)
are both open and mutually adjacent — the true shortest path holds 2 cells —
yet `AStar` returns the nil path, because `cloneGrid` never initializes
`Neighbors` on the per-search clone. -/
theorem astar_adjacent_open_cells_no_path :
    (GetCell 0 0 grid1).isWall = false ∧ (GetCell 1 0 grid1).isWall = false ∧
    (1, 0) ∈ (GetCell 0 0 grid1).neighbors ∧ (0, 0) ∈ (GetCell 1 0 grid1).neighbors ∧
    AStar 0 0 1 0 grid1 = [] := by
  decide

/-- Claim C3 (evidence of the code bug): in `gC3` — a single owned unit whose
position equals its target, and no pellet of value 10 or of value 1 anywhere —
`PlayTurn` reaches the final else branch and dereferences the nil closest
pellet inside the move `Sprintf` (modelled by `none`) instead of emitting a
hold-position move. -/
theorem playTurn_no_pellet_dereferences_nil : gC3.PlayTurn = none := by decide

/-- Claim C4: `GetClosestSuperPallet` (resp. `GetClosestRegularPallet`)
realizes the first-wins strict-minimum scan over the pellet slice: it returns
nil exactly when no pellet of value 10 (resp. 1) is both unconsumed and
untargeted, and otherwise the earliest such pellet whose A*-computed path
length (`len(path)`, the nil path counting 0) is minimal, ties going to the
first pellet in insertion order. -/
theorem getClosestPallet_argmin_first_tie (g : Game) (pac : Pac) :
    IsBest superCand (pathLen g.Grid pac) g.Pellet (g.GetClosestSuperPallet pac) ∧
    IsBest regularCand (pathLen g.Grid pac) g.Pellet (g.GetClosestRegularPallet pac) :=
  ⟨getClosestSuper_isBest g pac, getClosestRegular_isBest g pac⟩

theorem getClosestPallet_argmin_witness :
    IsBest superCand (pathLen gC5.Grid pacA) gC5.Pellet
      (gC5.GetClosestSuperPallet pacA) :=
  (getClosestPallet_argmin_first_tie gC5 pacA).1

/-- Claim C5 counterexample: in `gC5` the sole candidate super pellet sits at
(2,0), unreachable from the pac at (0,0) — `AStar` reports no path — and yet
`GetClosestSuperPallet` selects it (pellet index 0, recorded distance 0)
rather than skipping it. -/
theorem unreachable_pellet_selected :
    AStar 0 0 2 0 gridC5 = [] ∧ gC5.GetClosestSuperPallet pacA = some (0, 0) := by
  decide

/-- Claim C5 (amended): a pellet for which `AStar` reports no path enters the
closest-pellet scan with Go path length 0, the least possible value, so it is
not skipped: whenever any unreachable candidate exists, the scan returns a
candidate whose A* path is empty, with recorded distance 0, and no error is
surfaced. Stated for both the super and the regular tier. -/
theorem unreachable_candidate_preferred (g : Game) (pac : Pac) (j : Nat)
    (q : Pellet) :
    (g.Pellet[j]? = some q → superCand q = true →
      AStar pac.X pac.Y q.X q.Y g.Grid = [] →
      ∃ i p, g.GetClosestSuperPallet pac = some (i, 0) ∧ g.Pellet[i]? = some p ∧
        superCand p = true ∧ AStar pac.X pac.Y p.X p.Y g.Grid = []) ∧
    (g.Pellet[j]? = some q → regularCand q = true →
      AStar pac.X pac.Y q.X q.Y g.Grid = [] →
      ∃ i p, g.GetClosestRegularPallet pac = some (i, 0) ∧ g.Pellet[i]? = some p ∧
        regularCand p = true ∧ AStar pac.X pac.Y p.X p.Y g.Grid = []) := by
  constructor
  · intro hj hq hnil
    have hb := getClosestSuper_isBest g pac
    cases hr : g.GetClosestSuperPallet pac with
    | none =>
      rw [hr] at hb
      rw [hb q (List.getElem?_mem hj)] at hq
      cases hq
    | some id0 =>
      obtain ⟨i, d⟩ := id0
      rw [hr] at hb
      obtain ⟨p, hi, hcand, hd, hmin, _⟩ := hb
      have hdq : pathLen g.Grid pac q = 0 := by rw [pathLen, hnil]; rfl
      have hd0 : d = 0 := Nat.le_zero.mp (hdq ▸ hmin j q hj hq)
      refine ⟨i, p, by rw [hd0], hi, hcand, ?_⟩
      have : pathLen g.Grid pac p = 0 := by rw [hd, hd0]
      exact List.length_eq_zero.mp this
  · intro hj hq hnil
    have hb := getClosestRegular_isBest g pac
    cases hr : g.GetClosestRegularPallet pac with
    | none =>
      rw [hr] at hb
      rw [hb q (List.getElem?_mem hj)] at hq
      cases hq
    | some id0 =>
      obtain ⟨i, d⟩ := id0
      rw [hr] at hb
      obtain ⟨p, hi, hcand, hd, hmin, _⟩ := hb
      have hdq : pathLen g.Grid pac q = 0 := by rw [pathLen, hnil]; rfl
      have hd0 : d = 0 := Nat.le_zero.mp (hdq ▸ hmin j q hj hq)
      refine ⟨i, p, by rw [hd0], hi, hcand, ?_⟩
      have : pathLen g.Grid pac p = 0 := by rw [hd, hd0]
      exact List.length_eq_zero.mp this

theorem unreachable_candidate_preferred_witness :
    ∃ i p, gC5.GetClosestSuperPallet pacA = some (i, 0) ∧ gC5.Pellet[i]? = some p ∧
      superCand p = true ∧ AStar pacA.X pacA.Y p.X p.Y gC5.Grid = [] :=
  (unreachable_candidate_preferred gC5 pacA 0 pelC5).1 (by decide) (by decide) (by decide)

/-- Claim C8: `CheckTargetEaten` — run for every owned unit in `PlayTurn`'s
first loop, before any move of the turn is emitted — clears the unit's stored
target whenever the pellet at the target coordinate is stale (absent, or
present but marked consumed): the target resets to the unit's own current
position and the cached distance is cleared to -1. -/
theorem checkTargetEaten_clears_stale (g : Game) (pac : Pac)
    (h : targetStale g.Pellet pac.TargetX pac.TargetY = true) :
    g.CheckTargetEaten pac =
      { pac with TargetX := pac.X, TargetY := pac.Y, TargetPelletDist := -1 } := by
  rw [Game.CheckTargetEaten, checkTargetEaten]
  rw [targetStale] at h
  cases hf : getPallet g.Pellet pac.TargetX pac.TargetY with
  | none => rw [getPallet] at hf; rw [hf]
  | some q =>
    rw [hf] at h
    rw [getPallet] at hf; rw [hf]
    simp only [if_pos h]

theorem checkTargetEaten_clears_stale_witness :
    gC6.CheckTargetEaten pacC6 =
      { pacC6 with TargetX := pacC6.X, TargetY := pacC6.Y, TargetPelletDist := -1 } :=
  checkTargetEaten_clears_stale gC6 pacC6 (by decide)

/-- Claim C6 counterexample: in `gC6` the unit's stored target (2,0) holds the
consumed pellet `pelletP`, whose targeted flag is set — the committing unit's
target is invalid. `PlayTurn` resets the unit (it re-commits to (1,0)), but
`pelletP` comes out bit-for-bit unchanged, its targeted flag still set; and
after the next turn's report revives the pellet (unconsumed, value 10),
`GetClosestSuperPallet` still returns nil — the pellet stays excluded although
no unit targets it any more. -/
theorem targeted_flag_never_cleared :
    pacC6.TargetX = pelletP.X ∧ pacC6.TargetY = pelletP.Y ∧
    pelletP.Consumed = true ∧ pelletP.Targeted = true ∧
    Game.PlayTurn gC6 = some (gC6after, "MOVE 0 1 0|") ∧
    gC6after.Pellet[0]? = some pelletP ∧
    (gC6after.MyPacs[0]?.map (fun q => (q.TargetX, q.TargetY)) = some (1, 0)) ∧
    ((gC6after.AddPellet 0 2 0 10).GetClosestSuperPallet
       { pacC6 with TargetX := 1, TargetY := 0, TargetPelletDist := 0 } = none) := by
  decide

theorem addPacList_eq_upsert (id mine x y : Int) (t : String) (s a : Int) :
    ∀ pacs : List Pac,
      addPacList id mine x y t s a pacs = upsertOrCreate pacs id (mine == 1) x y t s a := by
  intro pacs
  induction pacs with
  | nil => rfl
  | cons p ps ih =>
    rw [addPacList]
    by_cases hid : p.Id = id
    · have hid2 : (p.Id == id) = true := beq_iff_eq.mpr hid
      rw [if_pos hid, upsertOrCreate, List.findIdx?_cons, hid2, if_pos rfl]
      rfl
    · have hid2 : (p.Id == id) = false := beq_eq_false_iff_ne.mpr hid
      rw [if_neg hid, ih, upsertOrCreate, upsertOrCreate, List.findIdx?_cons, hid2]
      simp only [Bool.false_eq_true, if_false]
      cases hf : ps.findIdx? (fun q => q.Id == id) with
      | none => simp [hf]
      | some j => simp [hf, List.getD_cons_succ]

theorem upsertOrCreate_length_le (pacs : List Pac) (id : Int) (isMine : Bool)
    (x y : Int) (t : String) (s a : Int) :
    pacs.length ≤ (upsertOrCreate pacs id isMine x y t s a).length := by
  rw [upsertOrCreate]
  cases hf : pacs.findIdx? (fun q => q.Id == id) with
  | none => simp
  | some j => simp

/-- Claim C10: `AddPac` is the spec's `upsertOrCreate` on the side picked by
`mine`: for an existing id only the position and attribute fields are
overwritten in place (the `with`-update on the found element keeps `TargetX`,
`TargetY`, `TargetPelletId`, `TargetPelletDist` and `Mine` untouched), for a
new id a unit is appended whose target is its own position; the other side's
slice and the pellet slice are untouched, and neither slice ever shrinks — no
unit is removed. -/
theorem addPac_is_upsertOrCreate (g : Game) (id mine x y : Int) (t : String)
    (s a : Int) :
    ((g.AddPac id mine x y t s a).MyPacs =
      if mine = 1 then upsertOrCreate g.MyPacs id (mine == 1) x y t s a
      else g.MyPacs) ∧
    ((g.AddPac id mine x y t s a).OpponentPacs =
      if mine = 1 then g.OpponentPacs
      else upsertOrCreate g.OpponentPacs id (mine == 1) x y t s a) ∧
    g.MyPacs.length ≤ (g.AddPac id mine x y t s a).MyPacs.length ∧
    g.OpponentPacs.length ≤ (g.AddPac id mine x y t s a).OpponentPacs.length ∧
    (g.AddPac id mine x y t s a).Pellet = g.Pellet := by
  by_cases hm : mine = 1
  · rw [Game.AddPac, if_pos hm]
    refine ⟨?_, ?_, ?_, ?_, rfl⟩
    · rw [if_pos hm]; exact addPacList_eq_upsert id mine x y t s a g.MyPacs
    · rw [if_pos hm]
    · rw [addPacList_eq_upsert]; exact upsertOrCreate_length_le _ _ _ _ _ _ _ _
    · exact Nat.le_refl _
  · rw [Game.AddPac, if_neg hm]
    refine ⟨?_, ?_, ?_, ?_, rfl⟩
    · rw [if_neg hm]
    · rw [if_neg hm]; exact addPacList_eq_upsert id mine x y t s a g.OpponentPacs
    · exact Nat.le_refl _
    · rw [addPacList_eq_upsert]; exact upsertOrCreate_length_le _ _ _ _ _ _ _ _

theorem addPac_is_upsertOrCreate_witness :
    (gC3.AddPac 7 1 2 0 "ROCK" 0 0).MyPacs =
      upsertOrCreate gC3.MyPacs 7 true 2 0 "ROCK" 0 0 := by
  have h := (addPac_is_upsertOrCreate gC3 7 1 2 0 "ROCK" 0 0).1
  simpa using h

theorem pelletAt_iff (x y : Int) (p : Pellet) :
    pelletAt x y p = true ↔ (p.X = x ∧ p.Y = y) := by
  rw [pelletAt]
  simp

theorem addPelletList_get_distinct (x y v : Int) :
    ∀ (ps : List Pellet), distinctCoordsB ps = true →
      ∀ (i : Nat) (p : Pellet), ps[i]? = some p →
        (addPelletList x y v ps)[i]? =
          some (if p.X = x ∧ p.Y = y then
                  { p with X := x, Y := y, Value := v, Consumed := false }
                else p) := by
  intro ps
  induction ps with
  | nil => intro _ i p hp; simp at hp
  | cons q qs ih =>
    intro hdist i p hp
    rw [distinctCoordsB, Bool.and_eq_true] at hdist
    obtain ⟨hall, hdist2⟩ := hdist
    rw [addPelletList]
    by_cases hq : pelletAt x y q = true
    · rw [if_pos hq]
      have hqc := (pelletAt_iff x y q).mp hq
      cases i with
      | zero =>
        simp only [List.getElem?_cons_zero, Option.some.injEq] at hp
        subst hp
        rw [List.getElem?_cons_zero, if_pos hqc]
      | succ j =>
        rw [List.getElem?_cons_succ] at hp
        rw [List.getElem?_cons_succ, hp]
        have hpq : ¬(p.X = x ∧ p.Y = y) := by
          intro hc
          have hmem := List.getElem?_mem hp
          have := List.all_eq_true.mp hall p hmem
          rw [Bool.not_eq_true'] at this
          have : pelletAt q.X q.Y p = true := by
            rw [pelletAt_iff]
            exact ⟨hc.1.trans hqc.1.symm, hc.2.trans hqc.2.symm⟩
          simp_all
        rw [if_neg hpq]
    · rw [if_neg hq]
      cases i with
      | zero =>
        simp only [List.getElem?_cons_zero, Option.some.injEq] at hp
        subst hp
        have hpq : ¬(q.X = x ∧ q.Y = y) := fun hc => hq ((pelletAt_iff x y q).mpr hc)
        rw [List.getElem?_cons_zero, if_neg hpq]
      | succ j =>
        rw [List.getElem?_cons_succ] at hp
        rw [List.getElem?_cons_succ]
        exact ih hdist2 j p hp

theorem addPelletList_mem_coords (x y v : Int) :
    ∀ (qs : List Pellet) (r : Pellet), r ∈ addPelletList x y v qs →
      (∃ r0, r0 ∈ qs ∧ r.X = r0.X ∧ r.Y = r0.Y) ∨ (r.X = x ∧ r.Y = y) := by
  intro qs
  induction qs with
  | nil =>
    intro r hr
    rw [addPelletList, List.mem_singleton] at hr
    subst hr
    exact Or.inr ⟨rfl, rfl⟩
  | cons q qs ih =>
    intro r hr
    rw [addPelletList] at hr
    by_cases hq : pelletAt x y q = true
    · rw [if_pos hq, List.mem_cons] at hr
      rcases hr with hr | hr
      · subst hr
        exact Or.inr ⟨rfl, rfl⟩
      · exact Or.inl ⟨r, List.mem_cons_of_mem _ hr, rfl, rfl⟩
    · rw [if_neg hq, List.mem_cons] at hr
      rcases hr with hr | hr
      · subst hr
        exact Or.inl ⟨r, List.mem_cons_self _ _, rfl, rfl⟩
      · rcases ih r hr with ⟨r0, hr0, hx, hy⟩ | hxy
        · exact Or.inl ⟨r0, List.mem_cons_of_mem _ hr0, hx, hy⟩
        · exact Or.inr hxy

theorem addPelletList_distinct (x y v : Int) :
    ∀ (ps : List Pellet), distinctCoordsB ps = true →
      distinctCoordsB (addPelletList x y v ps) = true := by
  intro ps
  induction ps with
  | nil => intro _; rfl
  | cons q qs ih =>
    intro hdist
    rw [distinctCoordsB, Bool.and_eq_true] at hdist
    obtain ⟨hall, hdist2⟩ := hdist
    rw [addPelletList]
    by_cases hq : pelletAt x y q = true
    · rw [if_pos hq]
      have hqc := (pelletAt_iff x y q).mp hq
      rw [distinctCoordsB, Bool.and_eq_true]
      constructor
      · rw [List.all_eq_true]
        intro r hr
        have := List.all_eq_true.mp hall r hr
        simpa [pelletAt, hqc.1, hqc.2] using this
      · exact hdist2
    · rw [if_neg hq]
      rw [distinctCoordsB, Bool.and_eq_true]
      constructor
      · rw [List.all_eq_true]
        intro r hr
        rcases addPelletList_mem_coords x y v qs r hr with ⟨r0, hr0, hx, hy⟩ | hxy
        · have := List.all_eq_true.mp hall r0 hr0
          rw [Bool.not_eq_true'] at this ⊢
          rw [pelletAt] at this ⊢
          simpa [hx, hy] using this
        · rw [Bool.not_eq_true', pelletAt]
          have hnq : ¬(q.X = x ∧ q.Y = y) := fun hc => hq ((pelletAt_iff x y q).mpr hc)
          simp only [Bool.and_eq_false_iff, beq_eq_false_iff_ne]
          by_cases hqx : q.X = x
          · exact Or.inr (fun hc => hnq ⟨hqx, hc.symm.trans hxy.2⟩)
          · exact Or.inl (fun hc => hqx (hc.symm.trans hxy.1))
      · exact ih hdist2

theorem applyReports_consumed :
    ∀ (reports : List (Int × Int × Int)) (ps : List Pellet),
      distinctCoordsB ps = true →
      ∀ (i : Nat) (p : Pellet), ps[i]? = some p →
        ∃ p', (applyReports ps reports)[i]? = some p' ∧ p'.X = p.X ∧ p'.Y = p.Y ∧
          p'.Consumed = (p.Consumed &&
            !(reports.any (fun r => r.1 == p.X && r.2.1 == p.Y))) := by
  intro reports
  induction reports with
  | nil =>
    intro ps hdist i p hp
    exact ⟨p, hp, rfl, rfl, by simp⟩
  | cons r rs ih =>
    intro ps hdist i p hp
    have hstep := addPelletList_get_distinct r.1 r.2.1 r.2.2 ps hdist i p hp
    have hdist1 := addPelletList_distinct r.1 r.2.1 r.2.2 ps hdist
    by_cases hm : p.X = r.1 ∧ p.Y = r.2.1
    · rw [if_pos hm] at hstep
      obtain ⟨p', h', hx, hy, hcons⟩ := ih _ hdist1 i _ hstep
      refine ⟨p', h', ?_, ?_, ?_⟩
      · rw [hx]; exact hm.1.symm
      · rw [hy]; exact hm.2.symm
      · rw [hcons]
        simp [List.any_cons, hm.1, hm.2]
    · rw [if_neg hm] at hstep
      obtain ⟨p', h', hx, hy, hcons⟩ := ih _ hdist1 i p hstep
      refine ⟨p', h', hx, hy, ?_⟩
      rw [hcons, List.any_cons]
      have hf : (r.1 == p.X && r.2.1 == p.Y) = false := by
        rw [Bool.and_eq_false_iff]
        by_cases h1 : r.1 = p.X
        · refine Or.inr (beq_eq_false_iff_ne.mpr ?_)
          intro hc
          exact hm ⟨h1.symm, hc.symm⟩
        · exact Or.inl (beq_eq_false_iff_ne.mpr h1)
      rw [hf, Bool.false_or]

theorem resetVisibility_distinct :
    ∀ ps : List Pellet, distinctCoordsB (resetVisibility ps) = distinctCoordsB ps := by
  intro ps
  induction ps with
  | nil => rfl
  | cons q qs ih =>
    show distinctCoordsB ({ q with Consumed := true } :: resetVisibility qs) =
      distinctCoordsB (q :: qs)
    rw [distinctCoordsB, distinctCoordsB, ih]
    rw [resetVisibility, List.all_map]
    rfl

/-- Claim C7: after the turn header marks every known pellet consumed
(`resetVisibility`) and the visible-pellet reports are applied (`AddPellet`
per report), every previously known pellet keeps its index and coordinates,
and is unconsumed if and only if some report names its coordinate — i.e. it
stays consumed exactly when it is absent from the new report. Assumes the
slice's coordinates are pairwise distinct, the invariant `AddPellet`
maintains. -/
theorem pellet_consumed_iff_absent (pellets : List Pellet)
    (reports : List (Int × Int × Int)) (i : Nat) (p : Pellet)
    (hdist : distinctCoordsB pellets = true) (hp : pellets[i]? = some p) :
    ∃ p', (applyReports (resetVisibility pellets) reports)[i]? = some p' ∧
      p'.X = p.X ∧ p'.Y = p.Y ∧
      (p'.Consumed = false ↔
        reports.any (fun r => r.1 == p.X && r.2.1 == p.Y) = true) := by
  have hd2 : distinctCoordsB (resetVisibility pellets) = true := by
    rw [resetVisibility_distinct]; exact hdist
  have hp2 : (resetVisibility pellets)[i]? = some { p with Consumed := true } := by
    rw [resetVisibility, List.getElem?_map, hp]; rfl
  obtain ⟨p', h', hx, hy, hcons⟩ := applyReports_consumed reports _ hd2 i _ hp2
  refine ⟨p', h', hx, hy, ?_⟩
  rw [hcons]
  simp

theorem pellet_consumed_iff_absent_witness :
    ∃ p', (applyReports (resetVisibility pelsC7) repsC7)[1]? = some p' ∧
      p'.X = 1 ∧ p'.Y = 0 ∧
      (p'.Consumed = false ↔
        repsC7.any (fun r => r.1 == (1 : Int) && r.2.1 == (0 : Int)) = true) :=
  pellet_consumed_iff_absent pelsC7 repsC7 1
    { X := 1, Y := 0, Value := 10, Consumed := false, Targeted := false }
    (by decide) (by decide)

theorem targetedMono_refl (l : List Pellet) : TargetedMono l l := by
  refine ⟨rfl, ?_⟩
  intro i p p2 hp hp2
  rw [hp] at hp2
  cases hp2
  exact ⟨rfl, rfl, fun h => h⟩

theorem targetedMono_trans (l1 l2 l3 : List Pellet)
    (h12 : TargetedMono l1 l2) (h23 : TargetedMono l2 l3) : TargetedMono l1 l3 := by
  refine ⟨h12.1.trans h23.1, ?_⟩
  intro i p p3 hp hp3
  have hi : i < l2.length := by
    rw [← h12.1]
    exact (List.getElem?_eq_some.mp hp).1
  cases hmid : l2[i]? with
  | none =>
    rw [List.getElem?_eq_none_iff] at hmid
    exact absurd hi (Nat.not_lt.mpr hmid)
  | some p2 =>
    obtain ⟨hx1, hy1, ht1⟩ := h12.2 i p p2 hp hmid
    obtain ⟨hx2, hy2, ht2⟩ := h23.2 i p2 p3 hmid hp3
    exact ⟨hx2.trans hx1, hy2.trans hy1, fun h => ht2 (ht1 h)⟩

theorem targetedMono_updateFirst (c : Pellet → Bool) (f : Pellet → Pellet)
    (hf : ∀ q, (f q).X = q.X ∧ (f q).Y = q.Y ∧
      (q.Targeted = true → (f q).Targeted = true)) :
    ∀ l : List Pellet, TargetedMono l (updateFirstPellet c f l) := by
  intro l
  induction l with
  | nil => exact targetedMono_refl []
  | cons q qs ih =>
    rw [updateFirstPellet]
    by_cases hc : c q = true
    · rw [if_pos hc]
      refine ⟨by simp, ?_⟩
      intro i p p2 hp hp2
      cases i with
      | zero =>
        rw [List.getElem?_cons_zero, Option.some.injEq] at hp hp2
        rw [← hp, ← hp2]
        exact hf q
      | succ j =>
        rw [List.getElem?_cons_succ] at hp hp2
        rw [hp] at hp2
        cases hp2
        exact ⟨rfl, rfl, fun h => h⟩
    · rw [if_neg hc]
      refine ⟨by simp [ih.1], ?_⟩
      intro i p p2 hp hp2
      cases i with
      | zero =>
        rw [List.getElem?_cons_zero, Option.some.injEq] at hp hp2
        rw [← hp, ← hp2]
        exact ⟨rfl, rfl, fun h => h⟩
      | succ j =>
        rw [List.getElem?_cons_succ] at hp hp2
        exact ih.2 j p p2 hp hp2

theorem targetedMono_removePallet (l : List Pellet) (x y : Int) :
    TargetedMono l (removePallet l x y) :=
  targetedMono_updateFirst (pelletAt x y) (fun p => { p with Consumed := true })
    (fun q => ⟨rfl, rfl, fun h => h⟩) l

theorem targetedMono_valueZero (l : List Pellet) (x y : Int) :
    TargetedMono l
      (updateFirstPellet (pelletAt x y) (fun p => { p with Value := 0 }) l) :=
  targetedMono_updateFirst (pelletAt x y) (fun p => { p with Value := 0 })
    (fun q => ⟨rfl, rfl, fun h => h⟩) l

theorem targetedMono_setTargeted (l : List Pellet) (i : Nat) :
    TargetedMono l (l.set i { l.getD i default with Targeted := true }) := by
  refine ⟨(List.length_set l i _).symm, ?_⟩
  intro j p p2 hp hp2
  by_cases hij : i = j
  · subst hij
    have hi : i < l.length := (List.getElem?_eq_some.mp hp).1
    rw [List.getElem?_set_self hi] at hp2
    rw [List.getD_eq_getElem?_getD, hp] at hp2
    cases hp2
    exact ⟨rfl, rfl, fun _ => rfl⟩
  · rw [List.getElem?_set_ne hij] at hp2
    rw [hp] at hp2
    cases hp2
    exact ⟨rfl, rfl, fun h => h⟩

theorem targetedMono_planPac (grid : List (List Cell)) (pellets : List Pellet)
    (pac : Pac) (pellets1 : List Pellet) (pac1 : Pac) (mv : String)
    (h : planPac grid pellets pac = some (pellets1, pac1, mv)) :
    TargetedMono pellets pellets1 := by
  simp only [planPac] at h
  split at h
  · cases hfind : List.find? (pelletAt pac.TargetX pac.TargetY) pellets with
    | some w =>
      rw [hfind] at h
      simp only [] at h
      split at h
      · cases h
        exact targetedMono_trans _ _ _
          (targetedMono_valueZero pellets pac.TargetX pac.TargetY)
          (targetedMono_setTargeted _ _)
      · split at h
        · cases h
          exact targetedMono_trans _ _ _
            (targetedMono_valueZero pellets pac.TargetX pac.TargetY)
            (targetedMono_setTargeted _ _)
        · cases h
    | none =>
      rw [hfind] at h
      simp only [] at h
      split at h
      · cases h
        exact targetedMono_setTargeted _ _
      · split at h
        · cases h
          exact targetedMono_setTargeted _ _
        · cases h
  · cases h
    exact targetedMono_refl pellets

theorem targetedMono_movesLoop (grid : List (List Cell)) :
    ∀ (pacs : List Pac) (pellets pellets2 : List Pellet) (pacs2 : List Pac)
      (mv : String),
      movesLoop grid pellets pacs = some (pellets2, pacs2, mv) →
      TargetedMono pellets pellets2 := by
  intro pacs
  induction pacs with
  | nil =>
    intro pellets pellets2 pacs2 mv h
    rw [movesLoop] at h
    cases h
    exact targetedMono_refl pellets
  | cons pac rest ih =>
    intro pellets pellets2 pacs2 mv h
    rw [movesLoop] at h
    cases hplan : planPac grid pellets pac with
    | none => rw [hplan] at h; cases h
    | some t =>
      obtain ⟨pl1, pc1, m1⟩ := t
      rw [hplan] at h
      simp only [] at h
      cases hrest : movesLoop grid pl1 rest with
      | none => rw [hrest] at h; cases h
      | some t2 =>
        obtain ⟨pl2, pcs2, m2⟩ := t2
        rw [hrest] at h
        simp only [] at h
        cases h
        exact targetedMono_trans _ _ _
          (targetedMono_planPac grid pellets pac pl1 pc1 m1 hplan)
          (ih _ _ _ _ hrest)

theorem targetedMono_phase1 :
    ∀ (pacs : List Pac) (pellets : List Pellet),
      TargetedMono pellets (phase1 pellets pacs).1 := by
  intro pacs
  induction pacs with
  | nil => intro pellets; exact targetedMono_refl pellets
  | cons pac rest ih =>
    intro pellets
    show TargetedMono pellets (phase1 (removePallet pellets pac.X pac.Y) rest).1
    exact targetedMono_trans _ _ _
      (targetedMono_removePallet pellets pac.X pac.Y) (ih _)

theorem targetedMono_phase2 :
    ∀ (pacs : List Pac) (pellets : List Pellet),
      TargetedMono pellets (phase2 pellets pacs) := by
  intro pacs
  induction pacs with
  | nil => intro pellets; exact targetedMono_refl pellets
  | cons pac rest ih =>
    intro pellets
    show TargetedMono pellets (phase2 (removePallet pellets pac.X pac.Y) rest)
    exact targetedMono_trans _ _ _
      (targetedMono_removePallet pellets pac.X pac.Y) (ih _)

theorem targetedMono_playTurn (g g2 : Game) (mv : String)
    (h : g.PlayTurn = some (g2, mv)) :
    TargetedMono g.Pellet g2.Pellet := by
  simp only [Game.PlayTurn] at h
  split at h
  · cases h
  · rename_i pellets3 pacs3 moves heq
    cases h
    exact targetedMono_trans _ _ _
      (targetedMono_trans _ _ _ (targetedMono_phase1 g.MyPacs g.Pellet)
        (targetedMono_phase2 g.OpponentPacs _))
      (targetedMono_movesLoop g.Grid _ _ _ _ _ heq)

/-- Claim C6 (amended): the targeted flag is set when a unit commits to a
pellet, but it is never cleared again — `CheckTargetEaten` resets only the
unit's own fields and no pellet update in `PlayTurn` ever writes
`Targeted := false` — so across any completed turn a pellet flagged targeted
is still flagged targeted, at the same index and coordinates; a pellet whose
targeting unit lost its target therefore stays excluded from every future
closest-pellet search. -/
theorem playTurn_never_clears_targeted (g g2 : Game) (mv : String) (i : Nat)
    (p : Pellet) (hrun : g.PlayTurn = some (g2, mv))
    (hp : g.Pellet[i]? = some p) (ht : p.Targeted = true) :
    ∃ p2, g2.Pellet[i]? = some p2 ∧ p2.Targeted = true ∧
      p2.X = p.X ∧ p2.Y = p.Y := by
  have hm := targetedMono_playTurn g g2 mv hrun
  have hi : i < g2.Pellet.length := by
    rw [← hm.1]
    exact (List.getElem?_eq_some.mp hp).1
  cases h2 : g2.Pellet[i]? with
  | none =>
    rw [List.getElem?_eq_none_iff] at h2
    exact absurd hi (Nat.not_lt.mpr h2)
  | some p2 =>
    obtain ⟨hx, hy, htt⟩ := hm.2 i p p2 hp h2
    exact ⟨p2, rfl, htt ht, hx, hy⟩

theorem playTurn_never_clears_targeted_witness :
    ∃ p2, gC6after.Pellet[0]? = some p2 ∧ p2.Targeted = true ∧
      p2.X = pelletP.X ∧ p2.Y = pelletP.Y :=
  playTurn_never_clears_targeted gC6 gC6after "MOVE 0 1 0|" 0 pelletP
    (by decide) (by decide) (by decide)

theorem updateFirstPellet_length (c : Pellet → Bool) (f : Pellet → Pellet) :
    ∀ l : List Pellet, (updateFirstPellet c f l).length = l.length := by
  intro l
  induction l with
  | nil => rfl
  | cons q qs ih =>
    rw [updateFirstPellet]
    by_cases hc : c q = true
    · rw [if_pos hc]; rfl
    · rw [if_neg hc]
      simp [ih]

theorem updateFirstPellet_get_notc (c : Pellet → Bool) (f : Pellet → Pellet) :
    ∀ (l : List Pellet) (i : Nat) (p : Pellet), l[i]? = some p → c p = false →
      (updateFirstPellet c f l)[i]? = some p := by
  intro l
  induction l with
  | nil => intro i p hp; simp at hp
  | cons q qs ih =>
    intro i p hp hc
    rw [updateFirstPellet]
    by_cases hq : c q = true
    · rw [if_pos hq]
      cases i with
      | zero =>
        rw [List.getElem?_cons_zero, Option.some.injEq] at hp
        rw [← hp] at hc
        rw [hq] at hc
        cases hc
      | succ j =>
        rw [List.getElem?_cons_succ] at hp
        rw [List.getElem?_cons_succ]
        exact hp
    · rw [if_neg hq]
      cases i with
      | zero =>
        rw [List.getElem?_cons_zero] at hp
        rw [List.getElem?_cons_zero]
        exact hp
      | succ j =>
        rw [List.getElem?_cons_succ] at hp
        rw [List.getElem?_cons_succ]
        exact ih j p hp hc

theorem updateFirstPellet_get_cases (c : Pellet → Bool) (f : Pellet → Pellet) :
    ∀ (l : List Pellet) (i : Nat) (q2 : Pellet),
      (updateFirstPellet c f l)[i]? = some q2 →
      ∃ q, l[i]? = some q ∧ (q2 = q ∨ (c q = true ∧ q2 = f q)) := by
  intro l
  induction l with
  | nil => intro i q2 h; simp [updateFirstPellet] at h
  | cons q qs ih =>
    intro i q2 h
    rw [updateFirstPellet] at h
    by_cases hq : c q = true
    · rw [if_pos hq] at h
      cases i with
      | zero =>
        rw [List.getElem?_cons_zero, Option.some.injEq] at h
        exact ⟨q, List.getElem?_cons_zero, Or.inr ⟨hq, h.symm⟩⟩
      | succ j =>
        rw [List.getElem?_cons_succ] at h
        exact ⟨q2, by rw [List.getElem?_cons_succ]; exact h, Or.inl rfl⟩
    · rw [if_neg hq] at h
      cases i with
      | zero =>
        rw [List.getElem?_cons_zero, Option.some.injEq] at h
        exact ⟨q, List.getElem?_cons_zero, Or.inl h.symm⟩
      | succ j =>
        rw [List.getElem?_cons_succ] at h
        obtain ⟨q0, hq0, hor⟩ := ih j q2 h
        exact ⟨q0, by rw [List.getElem?_cons_succ]; exact hq0, hor⟩

theorem superShrink_refl (l : List Pellet) : SuperShrink l l :=
  fun _ _ h _ => h

theorem superShrink_trans (l1 l2 l3 : List Pellet)
    (h12 : SuperShrink l1 l2) (h23 : SuperShrink l2 l3) : SuperShrink l1 l3 :=
  fun j q h hc => h12 j q (h23 j q h hc) hc

theorem superShrink_updateFirst (c : Pellet → Bool) (f : Pellet → Pellet)
    (hf : ∀ q, superCand (f q) = false) (l : List Pellet) :
    SuperShrink l (updateFirstPellet c f l) := by
  intro j q hq hcand
  obtain ⟨q0, hq0, hor⟩ := updateFirstPellet_get_cases c f l j q hq
  rcases hor with rfl | ⟨_, rfl⟩
  · exact hq0
  · rw [hf q0] at hcand
    cases hcand

theorem superCand_value_zero (q : Pellet) :
    superCand { q with Value := 0 } = false := by
  simp [superCand]

theorem superCand_consumed (q : Pellet) :
    superCand { q with Consumed := true } = false := by
  simp [superCand]

theorem superCand_targeted (q : Pellet) :
    superCand { q with Targeted := true } = false := by
  simp [superCand]

theorem superShrink_oldPellets (pellets : List Pellet) (pac : Pac) :
    SuperShrink pellets (oldPellets pellets pac) := by
  rw [oldPellets]
  cases pellets.find? (pelletAt pac.TargetX pac.TargetY) with
  | none => exact superShrink_refl pellets
  | some w =>
    exact superShrink_updateFirst _ _ (fun q => superCand_value_zero q) pellets

theorem coordsEq_refl (l : List Pellet) : CoordsEq l l := fun _ => rfl

theorem coordsEq_trans (l1 l2 l3 : List Pellet)
    (h12 : CoordsEq l1 l2) (h23 : CoordsEq l2 l3) : CoordsEq l1 l3 :=
  fun j => (h12 j).trans (h23 j)

theorem coordsEq_updateFirst (c : Pellet → Bool) (f : Pellet → Pellet)
    (hf : ∀ q, (f q).X = q.X ∧ (f q).Y = q.Y) :
    ∀ l : List Pellet, CoordsEq l (updateFirstPellet c f l) := by
  intro l
  induction l with
  | nil => intro j; rfl
  | cons q qs ih =>
    intro j
    rw [updateFirstPellet]
    by_cases hq : c q = true
    · rw [if_pos hq]
      cases j with
      | zero =>
        rw [List.getElem?_cons_zero, List.getElem?_cons_zero]
        simp [(hf q).1, (hf q).2]
      | succ k =>
        rw [List.getElem?_cons_succ, List.getElem?_cons_succ]
    · rw [if_neg hq]
      cases j with
      | zero => rw [List.getElem?_cons_zero, List.getElem?_cons_zero]
      | succ k =>
        rw [List.getElem?_cons_succ, List.getElem?_cons_succ]
        exact ih k

theorem coordsEq_oldPellets (pellets : List Pellet) (pac : Pac) :
    CoordsEq pellets (oldPellets pellets pac) := by
  rw [oldPellets]
  cases pellets.find? (pelletAt pac.TargetX pac.TargetY) with
  | none => exact coordsEq_refl pellets
  | some w =>
    exact coordsEq_updateFirst (pelletAt pac.TargetX pac.TargetY)
      (fun p => { p with Value := 0 }) (fun q => ⟨rfl, rfl⟩) pellets

theorem coordsEq_set (l : List Pellet) (i : Nat) (v : Pellet) (p : Pellet)
    (hp : l[i]? = some p) (hx : v.X = p.X) (hy : v.Y = p.Y) :
    CoordsEq l (l.set i v) := by
  intro j
  by_cases hij : i = j
  · subst hij
    rw [List.getElem?_set_self (List.getElem?_eq_some.mp hp).1, hp]
    simp [hx, hy]
  · rw [List.getElem?_set_ne hij]

theorem planPac_idle_eq (grid : List (List Cell)) (pellets : List Pellet)
    (pac : Pac) (hidle : pac.X = pac.TargetX ∧ pac.Y = pac.TargetY) :
    planPac grid pellets pac =
      (match closestSuperLoop grid (oldPac pellets pac) (oldPellets pellets pac)
          0 none with
       | some (i, _) =>
         some ((oldPellets pellets pac).set i
             { (oldPellets pellets pac).getD i default with Targeted := true },
           { oldPac pellets pac with
             TargetX := ((oldPellets pellets pac).getD i default).X,
             TargetY := ((oldPellets pellets pac).getD i default).Y,
             TargetPelletDist := (AStar (oldPac pellets pac).X (oldPac pellets pac).Y
               ((oldPellets pellets pac).getD i default).X
               ((oldPellets pellets pac).getD i default).Y grid).length },
           "MOVE " ++ toString (oldPac pellets pac).Id ++ " "
             ++ toString ((oldPellets pellets pac).getD i default).X ++ " "
             ++ toString ((oldPellets pellets pac).getD i default).Y ++ "|")
       | none =>
         match closestRegularLoop grid (oldPac pellets pac) (oldPellets pellets pac)
             0 none with
         | some (i, _) =>
           some ((oldPellets pellets pac).set i
               { (oldPellets pellets pac).getD i default with Targeted := true },
             { oldPac pellets pac with
               TargetX := ((oldPellets pellets pac).getD i default).X,
               TargetY := ((oldPellets pellets pac).getD i default).Y,
               TargetPelletDist := (AStar (oldPac pellets pac).X (oldPac pellets pac).Y
                 ((oldPellets pellets pac).getD i default).X
                 ((oldPellets pellets pac).getD i default).Y grid).length },
             "MOVE " ++ toString (oldPac pellets pac).Id ++ " "
               ++ toString ((oldPellets pellets pac).getD i default).X ++ " "
               ++ toString ((oldPellets pellets pac).getD i default).Y ++ "|")
         | none => none) := by
  rw [planPac, if_pos hidle]
  rfl

theorem scanSuper_unique (grid : List (List Cell)) (pc : Pac) (l : List Pellet)
    (i : Nat) (p : Pellet) (hp : l[i]? = some p) (hcand : superCand p = true)
    (huniq : ∀ (j : Nat) (q : Pellet), l[j]? = some q → superCand q = true → j = i) :
    closestSuperLoop grid pc l 0 none = some (i, pathLen grid pc p) := by
  have hball : IsBest superCand (pathLen grid pc) l
      (closestSuperLoop grid pc l 0 none) := by
    rw [closestSuperLoop_eq]
    exact scanMin_spec _ _ _
  cases hr : closestSuperLoop grid pc l 0 none with
  | none =>
    rw [hr] at hball
    rw [hball p (List.getElem?_mem hp)] at hcand
    cases hcand
  | some jd =>
    obtain ⟨j, d⟩ := jd
    rw [hr] at hball
    obtain ⟨q, hq, hqc, hqd, _, _⟩ := hball
    have hji : j = i := huniq j q hq hqc
    subst hji
    rw [hp, Option.some.injEq] at hq
    subst hq
    rw [hqd]

theorem scanSuper_none (grid : List (List Cell)) (pc : Pac) (l : List Pellet)
    (hno : ∀ (j : Nat) (q : Pellet), l[j]? = some q → superCand q = false) :
    closestSuperLoop grid pc l 0 none = none := by
  have hball : IsBest superCand (pathLen grid pc) l
      (closestSuperLoop grid pc l 0 none) := by
    rw [closestSuperLoop_eq]
    exact scanMin_spec _ _ _
  cases hr : closestSuperLoop grid pc l 0 none with
  | none => rfl
  | some jd =>
    obtain ⟨j, d⟩ := jd
    rw [hr] at hball
    obtain ⟨q, hq, hqc, _, _, _⟩ := hball
    rw [hno j q hq] at hqc
    cases hqc

theorem regularCand_of_targeted (q : Pellet) (h : q.Targeted = true) :
    regularCand q = false := by
  simp [regularCand, h]

theorem set_targeted_no_superCand (pelletsZ : List Pellet) (i : Nat) (p : Pellet)
    (hZ1 : pelletsZ[i]? = some p)
    (huniqZ : ∀ (j : Nat) (q : Pellet), pelletsZ[j]? = some q →
      superCand q = true → j = i) :
    ∀ (j : Nat) (q : Pellet),
      (pelletsZ.set i { p with Targeted := true })[j]? = some q →
      superCand q = false := by
  intro j q hq
  by_cases hij : i = j
  · subst hij
    rw [List.getElem?_set_self (List.getElem?_eq_some.mp hZ1).1,
      Option.some.injEq] at hq
    rw [← hq]
    exact superCand_targeted p
  · rw [List.getElem?_set_ne hij] at hq
    cases hsc : superCand q with
    | false => rfl
    | true => exact absurd (huniqZ j q hq hsc).symm hij

theorem oldPellets_get_keep (pellets : List Pellet) (pac : Pac) (i : Nat)
    (p : Pellet) (hp : pellets[i]? = some p)
    (hnot : pelletAt pac.TargetX pac.TargetY p = false) :
    (oldPellets pellets pac)[i]? = some p := by
  rw [oldPellets]
  cases pellets.find? (pelletAt pac.TargetX pac.TargetY) with
  | none => exact hp
  | some w => exact updateFirstPellet_get_notc _ _ pellets i p hp hnot

theorem oldPellets_get_cases (pellets : List Pellet) (pac : Pac) (i : Nat)
    (q2 : Pellet) (h : (oldPellets pellets pac)[i]? = some q2) :
    ∃ q, pellets[i]? = some q ∧ (q2 = q ∨ q2 = { q with Value := 0 }) := by
  rw [oldPellets] at h
  cases hfind : pellets.find? (pelletAt pac.TargetX pac.TargetY) with
  | none =>
    rw [hfind] at h
    simp only [] at h
    exact ⟨q2, h, Or.inl rfl⟩
  | some w =>
    rw [hfind] at h
    simp only [] at h
    obtain ⟨q, hq, hor⟩ := updateFirstPellet_get_cases (pelletAt pac.TargetX pac.TargetY)
      (fun r => { r with Value := 0 }) pellets i q2 h
    rcases hor with h1 | ⟨_, h1⟩
    · exact ⟨q, hq, Or.inl h1⟩
    · exact ⟨q, hq, Or.inr h1⟩

/-- Claim C9: with exactly one unconsumed, untargeted super pellet `p` (at
index `i`, no other pellet sharing its coordinate) and two owned idle units
planned in sequence, the first unit commits to `p` — its target becomes `p`'s
coordinate and `p`'s targeted flag is set in the slice `planPac` returns —
and the second unit cannot pick it: the super-pellet search it runs on the
post-commit slice returns nil (the first unit's commit is visible to it
within the same turn), and whatever its own `planPac` step returns, the
second unit's target is not `p`'s coordinate. `p` is assumed not to sit under
the first unit (a pellet there would have been consumed by `RemovePallet`
before the planning loop). -/
theorem no_double_super_targeting (grid : List (List Cell))
    (pellets : List Pellet) (pac1 pac2 : Pac) (i : Nat) (p : Pellet)
    (hp : pellets[i]? = some p)
    (hcand : superCand p = true)
    (huniq : ∀ j : Nat, j < pellets.length →
      superCand (pellets.getD j default) = true → j = i)
    (hcoord : ∀ j : Nat, j < pellets.length →
      (pellets.getD j default).X = p.X → (pellets.getD j default).Y = p.Y → j = i)
    (hidle1 : pac1.X = pac1.TargetX ∧ pac1.Y = pac1.TargetY)
    (hidle2 : pac2.X = pac2.TargetX ∧ pac2.Y = pac2.TargetY)
    (hnot1 : ¬(p.X = pac1.X ∧ p.Y = pac1.Y)) :
    ∃ pellets1 pac1c mv1,
      planPac grid pellets pac1 = some (pellets1, pac1c, mv1) ∧
      pac1c.TargetX = p.X ∧ pac1c.TargetY = p.Y ∧
      pellets1[i]? = some { p with Targeted := true } ∧
      (∀ g0 : Game, Game.GetClosestSuperPallet
        { g0 with Grid := grid, Pellet := pellets1 } pac2 = none) ∧
      (∀ (pellets2 : List Pellet) (pac2c : Pac) (mv2 : String),
        planPac grid pellets1 pac2 = some (pellets2, pac2c, mv2) →
        ¬(pac2c.TargetX = p.X ∧ pac2c.TargetY = p.Y)) := by
  have huniq2 : ∀ (j : Nat) (q : Pellet), pellets[j]? = some q →
      superCand q = true → j = i := by
    intro j q hq hc
    have hlt := (List.getElem?_eq_some.mp hq).1
    have hgd : pellets.getD j default = q := by
      rw [List.getD_eq_getElem?_getD, hq]; rfl
    exact huniq j hlt (by rw [hgd]; exact hc)
  have hcoord2 : ∀ (j : Nat) (q : Pellet), pellets[j]? = some q →
      q.X = p.X → q.Y = p.Y → j = i := by
    intro j q hq hx hy
    have hlt := (List.getElem?_eq_some.mp hq).1
    have hgd : pellets.getD j default = q := by
      rw [List.getD_eq_getElem?_getD, hq]; rfl
    exact hcoord j hlt (by rw [hgd]; exact hx) (by rw [hgd]; exact hy)
  have hnotb : pelletAt pac1.TargetX pac1.TargetY p = false := by
    rw [pelletAt, ← hidle1.1, ← hidle1.2, Bool.and_eq_false_iff]
    by_cases h1 : p.X = pac1.X
    · exact Or.inr (beq_eq_false_iff_ne.mpr (fun hc => hnot1 ⟨h1, hc⟩))
    · exact Or.inl (beq_eq_false_iff_ne.mpr h1)
  have hZ1 : (oldPellets pellets pac1)[i]? = some p :=
    oldPellets_get_keep pellets pac1 i p hp hnotb
  have hshrinkZ : SuperShrink pellets (oldPellets pellets pac1) :=
    superShrink_oldPellets pellets pac1
  have huniqZ : ∀ (j : Nat) (q : Pellet), (oldPellets pellets pac1)[j]? = some q →
      superCand q = true → j = i :=
    fun j q hq hc => huniq2 j q (hshrinkZ j q hq hc) hc
  have hscan := scanSuper_unique grid (oldPac pellets pac1) (oldPellets pellets pac1)
    i p hZ1 hcand huniqZ
  have hgdZ : (oldPellets pellets pac1).getD i default = p := by
    rw [List.getD_eq_getElem?_getD, hZ1]; rfl
  have hplan := planPac_idle_eq grid pellets pac1 hidle1
  rw [hscan] at hplan
  simp only [] at hplan
  rw [hgdZ] at hplan
  have hiZ : i < (oldPellets pellets pac1).length := (List.getElem?_eq_some.mp hZ1).1
  have h1i : ((oldPellets pellets pac1).set i { p with Targeted := true })[i]? =
      some { p with Targeted := true } := List.getElem?_set_self hiZ
  have hnoCand1 : ∀ (j : Nat) (q : Pellet),
      ((oldPellets pellets pac1).set i { p with Targeted := true })[j]? = some q →
      superCand q = false :=
    set_targeted_no_superCand (oldPellets pellets pac1) i p hZ1 huniqZ
  have hcoords1 : CoordsEq pellets
      ((oldPellets pellets pac1).set i { p with Targeted := true }) :=
    coordsEq_trans _ _ _ (coordsEq_oldPellets pellets pac1)
      (coordsEq_set (oldPellets pellets pac1) i _ p hZ1 rfl rfl)
  refine ⟨(oldPellets pellets pac1).set i { p with Targeted := true }, _, _,
    hplan, rfl, rfl, h1i, ?_, ?_⟩
  · intro g0
    show closestSuperLoop grid pac2
      ((oldPellets pellets pac1).set i { p with Targeted := true }) 0 none = none
    exact scanSuper_none grid pac2 _ hnoCand1
  · intro pellets2 pac2c mv2 h2
    have hshrink2 : SuperShrink
        ((oldPellets pellets pac1).set i { p with Targeted := true })
        (oldPellets ((oldPellets pellets pac1).set i { p with Targeted := true }) pac2) :=
      superShrink_oldPellets _ pac2
    have hnoCandZ : ∀ (j : Nat) (q : Pellet),
        (oldPellets ((oldPellets pellets pac1).set i { p with Targeted := true })
          pac2)[j]? = some q → superCand q = false := by
      intro j q hq
      cases hsc : superCand q with
      | false => rfl
      | true =>
        have hfalse := hnoCand1 j q (hshrink2 j q hq hsc)
        rw [hfalse] at hsc
        cases hsc
    have hsup2 : closestSuperLoop grid
        (oldPac ((oldPellets pellets pac1).set i { p with Targeted := true }) pac2)
        (oldPellets ((oldPellets pellets pac1).set i { p with Targeted := true }) pac2)
        0 none = none :=
      scanSuper_none grid _ _ hnoCandZ
    have hplan2 := planPac_idle_eq grid
      ((oldPellets pellets pac1).set i { p with Targeted := true }) pac2 hidle2
    rw [hsup2] at hplan2
    simp only [] at hplan2
    cases hreg : closestRegularLoop grid
        (oldPac ((oldPellets pellets pac1).set i { p with Targeted := true }) pac2)
        (oldPellets ((oldPellets pellets pac1).set i { p with Targeted := true }) pac2)
        0 none with
    | none =>
      rw [hreg] at hplan2
      rw [hplan2] at h2
      cases h2
    | some jd =>
      obtain ⟨i2, d2⟩ := jd
      rw [hreg] at hplan2
      simp only [] at hplan2
      rw [hplan2] at h2
      have hballR : IsBest regularCand
          (pathLen grid (oldPac ((oldPellets pellets pac1).set i
            { p with Targeted := true }) pac2))
          (oldPellets ((oldPellets pellets pac1).set i { p with Targeted := true }) pac2)
          (closestRegularLoop grid
            (oldPac ((oldPellets pellets pac1).set i { p with Targeted := true }) pac2)
            (oldPellets ((oldPellets pellets pac1).set i { p with Targeted := true }) pac2)
            0 none) := by
        rw [closestRegularLoop_eq]
        exact scanMin_spec _ _ _
      rw [hreg] at hballR
      obtain ⟨q2, hq2, hq2c, _, _, _⟩ := hballR
      have hgd2 : (oldPellets ((oldPellets pellets pac1).set i
          { p with Targeted := true }) pac2).getD i2 default = q2 := by
        rw [List.getD_eq_getElem?_getD, hq2]; rfl
      cases h2
      intro hcon
      have hx : q2.X = p.X := by rw [← hgd2]; exact hcon.1
      have hy : q2.Y = p.Y := by rw [← hgd2]; exact hcon.2
      have hc2 : CoordsEq pellets
          (oldPellets ((oldPellets pellets pac1).set i { p with Targeted := true })
            pac2) :=
        coordsEq_trans _ _ _ hcoords1 (coordsEq_oldPellets _ pac2)
      have hmap := hc2 i2
      rw [hq2] at hmap
      cases hq0 : pellets[i2]? with
      | none =>
        rw [hq0] at hmap
        cases hmap
      | some q0 =>
        rw [hq0] at hmap
        simp only [Option.map_some', Option.some.injEq] at hmap
        have h0x : q0.X = p.X := (congrArg Prod.fst hmap).trans hx
        have h0y : q0.Y = p.Y := (congrArg Prod.snd hmap).trans hy
        have hi2 : i2 = i := hcoord2 i2 q0 hq0 h0x h0y
        subst hi2
        obtain ⟨q1, hq1, hor⟩ := oldPellets_get_cases
          ((oldPellets pellets pac1).set i2 { p with Targeted := true }) pac2 i2 q2 hq2
        rw [h1i, Option.some.injEq] at hq1
        have ht2 : q2.Targeted = true := by
          rcases hor with rfl | rfl
          · rw [← hq1]
          · rw [← hq1]
        have hfalse := regularCand_of_targeted q2 ht2
        rw [hfalse] at hq2c
        exact Bool.noConfusion hq2c

theorem no_double_super_targeting_witness :
    ∃ pellets1 pac1c mv1,
      planPac grid1 gC9.Pellet pacA = some (pellets1, pac1c, mv1) ∧
      pac1c.TargetX = 2 ∧ pac1c.TargetY = 0 ∧
      pellets1[0]? =
        some { X := 2, Y := 0, Value := 10, Consumed := false, Targeted := true } ∧
      (∀ g0 : Game, Game.GetClosestSuperPallet
        { g0 with Grid := grid1, Pellet := pellets1 } pacB = none) ∧
      (∀ (pellets2 : List Pellet) (pac2c : Pac) (mv2 : String),
        planPac grid1 pellets1 pacB = some (pellets2, pac2c, mv2) →
        ¬(pac2c.TargetX = 2 ∧ pac2c.TargetY = 0)) :=
  no_double_super_targeting grid1 gC9.Pellet pacA pacB 0
    { X := 2, Y := 0, Value := 10, Consumed := false, Targeted := false }
    (by decide) (by decide) (by decide) (by decide) (by decide) (by decide)
    (by decide)
